import Mathlib

/-!
Shallow embedding of `src/gemini-2/live_api_ui.py` (class `GeminiHandler`,
an `AsyncStreamHandler` adapter relaying audio between a local UI and a
remote streaming session).

Machine data is modelled as: audio sample buffers are lists of `Int`
(int16 samples), byte strings are lists of `Nat` (each < 256 by
construction), the two `asyncio.Queue`s are FIFO lists (append at the
tail, dequeue at the head, the standard semantics of `asyncio.Queue`),
and the `asyncio.Event` objects (`quit`, and the library-provided
`args_set`) are `Bool` flags.  All access happens on a single
cooperative event loop, so the adapter is a sequential state machine.
-/

namespace LiveAPIUI

/-- A `numpy` ndarray of int16 samples: a shape together with the flat
row-major sample data.  `squeeze` drops the length-one axes and leaves
the flat data unchanged; `tobytes` serialises the flat data. -/
structure NDArray where
  shape : List Nat
  data : List Int
deriving Repr, DecidableEq

/-- `numpy.squeeze`: remove axes of length one; the underlying flat
buffer is untouched. -/
def NDArray.squeeze (a : NDArray) : NDArray :=
  { shape := a.shape.filter (fun d => d ≠ 1), data := a.data }

/-- Little-endian byte pair of one int16 sample (two's complement),
as `numpy.ndarray.tobytes` lays it out for dtype int16. -/
def int16le (s : Int) : List Nat :=
  let u := (s.emod 65536).toNat
  [u % 256, u / 256]

/-- `numpy.ndarray.tobytes`: the flat data serialised sample by sample. -/
def NDArray.tobytes (a : NDArray) : List Nat :=
  (a.data.map int16le).flatten

/-- The base64 alphabet (RFC 4648), as used by `base64.b64encode`. -/
def b64Char (n : Nat) : Char :=
  if n < 26 then Char.ofNat (65 + n)
  else if n < 52 then Char.ofNat (97 + n - 26)
  else if n < 62 then Char.ofNat (48 + n - 52)
  else if n = 62 then '+'
  else '/'

/-- Standard base64 encoding with `=` padding (`base64.b64encode`).
Three input bytes become four alphabet characters; a trailing one- or
two-byte group is padded. -/
def base64Encode : List Nat → List Char
  | [] => []
  | [b1] => [b64Char (b1 / 4), b64Char (b1 % 4 * 16), '=', '=']
  | [b1, b2] =>
    [b64Char (b1 / 4), b64Char (b1 % 4 * 16 + b2 / 16), b64Char (b2 % 16 * 4), '=']
  | b1 :: b2 :: b3 :: rest =>
    b64Char (b1 / 4) :: b64Char (b1 % 4 * 16 + b2 / 16) ::
      b64Char (b2 % 16 * 4 + b3 / 64) :: b64Char (b3 % 64) :: base64Encode rest

/-- The message `receive` builds from an input frame's array:
`base64.b64encode(array.squeeze().tobytes()).decode("UTF-8")`.  The
base64 output is pure ASCII, so the UTF-8 decode is just the character
sequence. -/
def audioMessage (array : NDArray) : String :=
  ⟨base64Encode array.squeeze.tobytes⟩

/-- One chunk of the remote session's response stream; its `data` field
may be absent (`None`) or an empty byte string, both falsy in Python. -/
structure Chunk where
  data : Option (List Nat)
deriving Repr, DecidableEq

/-- State of one `GeminiHandler` instance.

Fields `expected_layout`, `output_sample_rate`, `output_frame_size`,
`input_sample_rate` are the constructor configuration; `client`,
`input_queue`, `output_queue`, `quit` are set up in `__init__`.
`args_set` is the library (`AsyncStreamHandler`) event that becomes set
once the UI has delivered the call arguments (the credential); `emit`
consults it.  `sessions` is a ghost counter of remote sessions opened on
behalf of this instance: it is bumped exactly when `emit` spawns the
`generator` task, whose single `connect` call opens a single session. -/
structure GeminiHandler where
  expected_layout : String
  output_sample_rate : Nat
  output_frame_size : Nat
  input_sample_rate : Nat
  client : Option Unit
  input_queue : List String
  output_queue : List (List Int)
  quit : Bool
  args_set : Bool
  sessions : Nat
deriving Repr, DecidableEq

/-- `GeminiHandler.__init__`: the configuration is stored (with the
fixed `input_sample_rate=16000`), `client` is `None`, both queues are
empty, and the `quit` event is unset. -/
def mkHandler (expected_layout : String)
    (output_sample_rate output_frame_size : Nat) : GeminiHandler :=
  { expected_layout := expected_layout
    output_sample_rate := output_sample_rate
    output_frame_size := output_frame_size
    input_sample_rate := 16000
    client := none
    input_queue := []
    output_queue := []
    quit := false
    args_set := false
    sessions := 0 }

/-- The instance the script constructs: `GeminiHandler()` with the
default arguments `expected_layout="mono"`, `output_sample_rate=24000`,
`output_frame_size=480`. -/
def initHandler : GeminiHandler := mkHandler "mono" 24000 480

/-- `GeminiHandler.copy`: a new `GeminiHandler` built from this
instance's configuration only. -/
def GeminiHandler.copy (h : GeminiHandler) : GeminiHandler :=
  mkHandler h.expected_layout h.output_sample_rate h.output_frame_size

/-- `GeminiHandler.receive`: squeeze the frame's array, base64-encode
its bytes and `put_nowait` the message on the input queue.  The method
consults no other state (in particular not the `quit` event). -/
def GeminiHandler.receive (h : GeminiHandler) (frame : Nat × NDArray) :
    GeminiHandler :=
  { h with input_queue := h.input_queue ++ [audioMessage frame.2] }

/-- `GeminiHandler.shutdown`: set the `quit` event. -/
def GeminiHandler.shutdown (h : GeminiHandler) : GeminiHandler :=
  { h with quit := true }

/-- The inbound loop `GeminiHandler.stream`
(`while not self.quit.is_set(): audio = await self.input_queue.get(); yield audio`)
run against a schedule: `flags` lists the value the `quit` event holds
at each successive `is_set` check (one check per loop iteration, taken
before that iteration's dequeue), and `q` is the queue content.  A
`true` check exits the loop; a `false` check dequeues the head and
yields it; an empty queue blocks the `get` with nothing further
arriving. The result is the list of frames yielded to the remote
session. -/
def streamRun : List Bool → List String → List String
  | [], _ => []
  | true :: _, _ => []
  | false :: _, [] => []
  | false :: fs, m :: q => m :: streamRun fs q

/-- Number of leading `false` entries of a flag schedule: the checks
passed before the loop first observes the set flag. -/
def leadingFalseCount : List Bool → Nat
  | false :: fs => leadingFalseCount fs + 1
  | _ => 0

/-- The body of `GeminiHandler.connect`'s `async for` over the session
responses, with the session's own behaviour abstracted as the list of
outcomes it produces: each element is either a response chunk or an
error the remote call raises.  The loop body (`if audio.data: yield
audio.data`) forwards truthy data; the code has no `try`/`except`, so
an error ends the generator with that error. The result is either the
list of yielded byte strings or the first error, unchanged. -/
def relayLoop : List (Except String Chunk) → Except String (List (List Nat))
  | [] => Except.ok []
  | Except.error e :: _ => Except.error e
  | Except.ok c :: rest =>
    match c.data with
    | some d => if d.isEmpty then relayLoop rest
                else (relayLoop rest).map (fun l => d :: l)
    | none => relayLoop rest

/-- `GeminiHandler.connect` as a whole: opening the client/session may
itself fail (`genai.Client`, `client.aio.live.connect`); there is no
handler around it, so that error is the result; otherwise the relay
loop runs. -/
def connectCall (openResult : Except String (List (Except String Chunk))) :
    Except String (List (List Nat)) :=
  match openResult with
  | Except.error e => Except.error e
  | Except.ok rs => relayLoop rs

/-- Error-free variant of the relay loop: the byte strings `connect`
yields for a list of response chunks. -/
def connectYields : List Chunk → List (List Nat)
  | [] => []
  | c :: rest =>
    match c.data with
    | some d => if d.isEmpty then connectYields rest else d :: connectYields rest
    | none => connectYields rest

/-- Little-endian 16-bit reassembly of a byte stream (a trailing odd
byte cannot form a sample). -/
def bytesToInt16 : List Nat → List Int
  | lo :: hi :: rest =>
    (if 128 ≤ hi then ((lo + 256 * hi : Nat) : Int) - 65536
     else ((lo + 256 * hi : Nat) : Int)) :: bytesToInt16 rest
  | _ => []

/-- Fuelled frame chunking: cut full frames of `n` samples off the
front while enough samples remain. -/
def chunkFramesAux : Nat → Nat → List Int → List (List Int)
  | 0, _, _ => []
  | fuel + 1, n, xs =>
    if 0 < n ∧ n ≤ xs.length then
      xs.take n :: chunkFramesAux fuel n (xs.drop n)
    else []

/-- Cut a sample list into complete frames of `n` samples. -/
def chunkFrames (n : Nat) (xs : List Int) : List (List Int) :=
  chunkFramesAux xs.length n xs

/-- Modelled from the spec: the library function
`async_aggregate_bytes_to_16bit` (from `gradio_webrtc`, not part of this
repository) aggregates the connect generator's byte chunks into 16-bit
sample buffers; per the spec the output is re-quantized to the
configured fixed frame size, so the model concatenates the byte stream,
reassembles int16 samples and emits complete frames of exactly
`frameSize` samples. -/
def aggregateTo16bit (frameSize : Nat) (chunks : List (List Nat)) :
    List (List Int) :=
  chunkFrames frameSize (bytesToInt16 chunks.flatten)

/-- `GeminiHandler.generator`: drain `connect` through the aggregator
and `put_nowait` every aggregated buffer on the output queue, given the
response chunks the session produced. -/
def GeminiHandler.generatorFill (h : GeminiHandler) (chunks : List Chunk) :
    GeminiHandler :=
  { h with output_queue :=
      h.output_queue ++ aggregateTo16bit h.output_frame_size (connectYields chunks) }

/-- `GeminiHandler.emit`: on the first call the `args_set` event is not
yet set; `emit` awaits `wait_for_args` (the library sets the event once
the UI delivers the credential, per the spec the session is opened upon
first use) and spawns the `generator` task, which opens the single
remote session — recorded by the ghost `sessions` counter.  Then (every
call) it dequeues one buffer from the output queue, returning it tagged
with the configured output sample rate; an empty queue blocks, returning
nothing. -/
def GeminiHandler.emit (h : GeminiHandler) :
    GeminiHandler × Option (Nat × List Int) :=
  let h1 := if h.args_set then h
            else { h with args_set := true, sessions := h.sessions + 1 }
  match h1.output_queue with
  | [] => (h1, none)
  | a :: rest =>
    ({ h1 with output_queue := rest }, some (h1.output_sample_rate, a))

/-- The three operations the environment drives the adapter with. -/
inductive Action where
  | receive (frame : Nat × NDArray)
  | emit
  | shutdown
deriving Repr

/-- Whether an action is an `emit` call. -/
def Action.isEmit : Action → Bool
  | .emit => true
  | _ => false

/-- State effect of one environment action. -/
def step (h : GeminiHandler) (a : Action) : GeminiHandler :=
  match a with
  | .receive f => h.receive f
  | .emit => (h.emit).1
  | .shutdown => h.shutdown

/-- Run a sequence of environment actions from a state. -/
def run (h : GeminiHandler) (as : List Action) : GeminiHandler :=
  as.foldl step h

/-- `receive` repeated over a list of frames. -/
def receiveAll (h : GeminiHandler) (frames : List (Nat × NDArray)) :
    GeminiHandler :=
  frames.foldl GeminiHandler.receive h

end LiveAPIUI

namespace LiveAPIUI

/-! Helper lemmas. -/

/-- Sanity check of the base64 embedding against the RFC 4648 example. -/
theorem base64Encode_rfc_example :
    base64Encode [77, 97, 110] = ['T', 'W', 'F', 'u'] := rfl

/-- Sanity check of the base64 padding cases. -/
theorem base64Encode_pad_examples :
    base64Encode [77, 97] = ['T', 'W', 'E', '='] ∧
    base64Encode [77] = ['T', 'Q', '=', '='] := ⟨rfl, rfl⟩

/-- The inbound loop yields exactly the queue prefix whose length is the
number of flag checks passed before the first set-flag observation. -/
theorem streamRun_eq_take (fs : List Bool) (q : List String) :
    streamRun fs q = q.take (leadingFalseCount fs) := by
  induction fs generalizing q with
  | nil => simp [streamRun, leadingFalseCount]
  | cons f fs ih =>
    cases f with
    | true => simp [streamRun, leadingFalseCount]
    | false =>
      cases q with
      | nil => simp [streamRun, leadingFalseCount]
      | cons m q => simp [streamRun, leadingFalseCount, ih]

/-- A schedule of n unset-flag checks passes n checks. -/
theorem leadingFalseCount_replicate (n : Nat) :
    leadingFalseCount (List.replicate n false) = n := by
  induction n with
  | zero => rfl
  | succ n ih => simp [List.replicate_succ, leadingFalseCount, ih]

/-- Repeated receive appends the encoded messages in submission order. -/
theorem receiveAll_input_queue (frames : List (Nat × NDArray)) :
    ∀ h : GeminiHandler, (receiveAll h frames).input_queue
      = h.input_queue ++ frames.map (fun f => audioMessage f.2) := by
  induction frames with
  | nil => intro h; simp [receiveAll]
  | cons f fs ih =>
    intro h
    have h1 : receiveAll h (f :: fs) = receiveAll (h.receive f) fs := rfl
    rw [h1, ih]
    simp [GeminiHandler.receive]

/-- Every frame the chunker produces has exactly n samples. -/
theorem chunkFramesAux_mem_length (fuel : Nat) :
    ∀ (n : Nat) (xs f : List Int), f ∈ chunkFramesAux fuel n xs → f.length = n := by
  induction fuel with
  | zero => intro n xs f hf; simp [chunkFramesAux] at hf
  | succ fuel ih =>
    intro n xs f hf
    by_cases hc : 0 < n ∧ n ≤ xs.length
    · rw [chunkFramesAux, if_pos hc] at hf
      rcases List.mem_cons.mp hf with hf | hf
      · subst hf; rw [List.length_take]; exact Nat.min_eq_left hc.2
      · exact ih n _ f hf
    · rw [chunkFramesAux, if_neg hc] at hf
      simp at hf

/-- The value emit returns is the head of the output queue tagged with
the configured output sample rate. -/
theorem emit_snd (h : GeminiHandler) :
    (h.emit).2 = h.output_queue.head?.map (fun a => (h.output_sample_rate, a)) := by
  unfold GeminiHandler.emit
  by_cases hA : h.args_set <;> simp [hA] <;> cases h.output_queue <;> simp

/-- The session (task) counter after one emit call. -/
theorem emit_fst_sessions (h : GeminiHandler) :
    ((h.emit).1).sessions = if h.args_set then h.sessions else h.sessions + 1 := by
  unfold GeminiHandler.emit
  by_cases hA : h.args_set <;> simp [hA] <;> cases h.output_queue <;> simp

/-- After any emit call the args event is set. -/
theorem emit_fst_args_set (h : GeminiHandler) : ((h.emit).1).args_set = true := by
  unfold GeminiHandler.emit
  by_cases hA : h.args_set <;> simp [hA] <;> cases h.output_queue <;> simp [hA]

/-- Session-counter effect of one environment action. -/
theorem step_sessions (h : GeminiHandler) (a : Action) :
    (step h a).sessions
      = if a.isEmit && !h.args_set then h.sessions + 1 else h.sessions := by
  cases a with
  | receive f => simp [step, Action.isEmit, GeminiHandler.receive]
  | shutdown => simp [step, Action.isEmit, GeminiHandler.shutdown]
  | emit => cases hA : h.args_set <;> simp [step, Action.isEmit, emit_fst_sessions, hA]

/-- Args-event effect of one environment action. -/
theorem step_args_set (h : GeminiHandler) (a : Action) :
    (step h a).args_set = (h.args_set || a.isEmit) := by
  cases a with
  | receive f => simp [step, Action.isEmit, GeminiHandler.receive]
  | shutdown => simp [step, Action.isEmit, GeminiHandler.shutdown]
  | emit => simp [step, Action.isEmit, emit_fst_args_set]

/-- Args-event value after a run: set exactly once some emit happened. -/
theorem run_args_set (as : List Action) : ∀ h : GeminiHandler,
    (run h as).args_set = (h.args_set || as.any Action.isEmit) := by
  induction as with
  | nil => intro h; simp [run]
  | cons a as ih =>
    intro h
    have h1 : run h (a :: as) = run (step h a) as := rfl
    rw [h1, ih, step_args_set]
    simp [Bool.or_assoc]

/-- Session counter after a run: it grows by one exactly when the args
event was still unset and the run performs some emit. -/
theorem run_sessions (as : List Action) : ∀ h : GeminiHandler,
    (run h as).sessions
      = h.sessions + (if !h.args_set && as.any Action.isEmit then 1 else 0) := by
  induction as with
  | nil => intro h; simp [run]
  | cons a as ih =>
    intro h
    have h1 : run h (a :: as) = run (step h a) as := rfl
    rw [h1, ih, step_sessions, step_args_set]
    cases hA : h.args_set <;> cases hE : a.isEmit <;> simp [hA, hE]

end LiveAPIUI

namespace LiveAPIUI

/-! Claim theorems. -/

/-- C1 counterexample: on a handler whose quit flag has been set by
shutdown, a receive call still enqueues a frame on the input queue, so
the accept-input operation does not stop enqueuing once the quit event
is set. -/
theorem receive_after_shutdown_still_enqueues :
    (initHandler.shutdown).quit = true ∧
    ((initHandler.shutdown).receive (16000, ⟨[3], [1, 2, 3]⟩)).input_queue.length
      = 1 := ⟨rfl, rfl⟩

/-- C1 (amended): after the stop flag is set, receive still enqueues
each frame's encoded message on the input queue; the stop is enforced in
the stream loop instead, whose next flag check observes the set flag and
yields no further frames to the remote session. -/
theorem post_shutdown_no_transmission (h : GeminiHandler) (f : Nat × NDArray)
    (fs : List Bool) (hq : h.quit = true) :
    (h.receive f).input_queue = h.input_queue ++ [audioMessage f.2] ∧
    streamRun (h.quit :: fs) (h.receive f).input_queue = [] := by
  refine ⟨rfl, ?_⟩
  rw [hq]
  rfl

/-- Witness for the amended C1 at a concrete shut-down handler. -/
theorem post_shutdown_no_transmission_witness :
    (initHandler.shutdown.receive (16000, ⟨[1], [5]⟩)).input_queue
        = initHandler.shutdown.input_queue ++ [audioMessage ⟨[1], [5]⟩] ∧
    streamRun (initHandler.shutdown.quit :: [])
        (initHandler.shutdown.receive (16000, ⟨[1], [5]⟩)).input_queue = [] :=
  post_shutdown_no_transmission initHandler.shutdown (16000, ⟨[1], [5]⟩) [] rfl

/-- C2: every frame submitted via receive while the stop flag is unset
is placed on the input queue exactly once, in submission order, and a
stream run that passes one flag check per frame forwards exactly those
encoded messages in the same order. -/
theorem receive_fifo (h : GeminiHandler) (frames : List (Nat × NDArray))
    (hquit : h.quit = false) (hempty : h.input_queue = []) :
    (receiveAll h frames).input_queue = frames.map (fun f => audioMessage f.2) ∧
    streamRun (List.replicate frames.length false)
        (receiveAll h frames).input_queue
      = frames.map (fun f => audioMessage f.2) := by
  have hq := receiveAll_input_queue frames h
  rw [hempty, List.nil_append] at hq
  refine ⟨hq, ?_⟩
  rw [hq, streamRun_eq_take, leadingFalseCount_replicate, ← List.length_map frames
    (fun f => audioMessage f.2), List.take_length]

/-- Witness for C2 on a fresh handler and a two-frame submission. -/
theorem receive_fifo_witness :
    (receiveAll initHandler
        [(16000, (⟨[2], [5, 6]⟩ : NDArray)), (16000, (⟨[1, 1], [7]⟩ : NDArray))]).input_queue
      = [(16000, (⟨[2], [5, 6]⟩ : NDArray)), (16000, (⟨[1, 1], [7]⟩ : NDArray))].map
          (fun f => audioMessage f.2) ∧
    streamRun
        (List.replicate
          [(16000, (⟨[2], [5, 6]⟩ : NDArray)), (16000, (⟨[1, 1], [7]⟩ : NDArray))].length
          false)
        (receiveAll initHandler
          [(16000, (⟨[2], [5, 6]⟩ : NDArray)), (16000, (⟨[1, 1], [7]⟩ : NDArray))]).input_queue
      = [(16000, (⟨[2], [5, 6]⟩ : NDArray)), (16000, (⟨[1, 1], [7]⟩ : NDArray))].map
          (fun f => audioMessage f.2) :=
  receive_fifo initHandler
    [(16000, (⟨[2], [5, 6]⟩ : NDArray)), (16000, (⟨[1, 1], [7]⟩ : NDArray))] rfl rfl

/-- C3: over any action sequence from the freshly constructed handler,
the number of remote sessions opened is zero while no emit call has
happened and exactly one as soon as some emit call has happened — one
session per instance, created lazily on first use. -/
theorem lazy_single_session (as : List Action) :
    (run initHandler as).sessions = if as.any Action.isEmit then 1 else 0 := by
  have h := run_sessions as initHandler
  have hs : initHandler.sessions = 0 := rfl
  have ha : initHandler.args_set = false := rfl
  rw [hs, ha] at h
  simpa using h

/-- C5: the inbound streaming loop checks the stop flag exactly once
before each dequeue, and the frames yielded to the remote session are
exactly the queue prefix matching the flag checks that observed the flag
unset — a yield whose preceding check passed is never retracted by a
later flag value, and a set-flag observation ends the loop. -/
theorem stream_cooperative (fs fs' : List Bool) (q q' : List String) (m : String) :
    streamRun fs q = q.take (leadingFalseCount fs) ∧
    streamRun (false :: fs') (m :: q') = m :: streamRun fs' q' ∧
    streamRun (true :: fs') (m :: q') = [] :=
  ⟨streamRun_eq_take fs q, rfl, rfl⟩

/-- C6: any error raised while opening the client/session, or raised by
the remote session during the relay loop, is the result of the embedded
connect operation itself, unchanged — there is no retry, backoff or
classification branch. -/
theorem error_passthrough (cs : List Chunk) (e : String)
    (rest : List (Except String Chunk)) :
    relayLoop (cs.map Except.ok ++ Except.error e :: rest) = Except.error e ∧
    connectCall (Except.error e) = Except.error e := by
  refine ⟨?_, rfl⟩
  induction cs with
  | nil => rfl
  | cons c cs ih =>
    cases hd : c.data with
    | none => simpa [relayLoop, hd] using ih
    | some d =>
      by_cases hde : d.isEmpty
      · simpa [relayLoop, hd, hde] using ih
      · simp [relayLoop, hd, hde, ih, Except.map]

/-- C7: receive enqueues exactly one message — the base64 encoding of
the bytes of the squeezed sample array, decoded as text — and changes no
other adapter state. -/
theorem receive_effect (h : GeminiHandler) (frame : Nat × NDArray) :
    (h.receive frame).input_queue
      = h.input_queue ++ [⟨base64Encode frame.2.squeeze.tobytes⟩] ∧
    (h.receive frame).output_queue = h.output_queue ∧
    (h.receive frame).client = h.client ∧
    (h.receive frame).quit = h.quit ∧
    (h.receive frame).args_set = h.args_set ∧
    (h.receive frame).sessions = h.sessions ∧
    (h.receive frame).expected_layout = h.expected_layout ∧
    (h.receive frame).output_sample_rate = h.output_sample_rate ∧
    (h.receive frame).output_frame_size = h.output_frame_size ∧
    (h.receive frame).input_sample_rate = h.input_sample_rate :=
  ⟨rfl, rfl, rfl, rfl, rfl, rfl, rfl, rfl, rfl, rfl⟩

/-- C8: copy keeps only the configuration (layout, output rate, output
frame size, and the fixed 16000 Hz input rate) and starts from fresh
state: empty queues, unset quit flag, unset args event, no client, no
sessions. -/
theorem copy_fresh (h : GeminiHandler) :
    h.copy.expected_layout = h.expected_layout ∧
    h.copy.output_sample_rate = h.output_sample_rate ∧
    h.copy.output_frame_size = h.output_frame_size ∧
    h.copy.input_sample_rate = 16000 ∧
    h.copy.input_queue = [] ∧
    h.copy.output_queue = [] ∧
    h.copy.quit = false ∧
    h.copy.client = none ∧
    h.copy.args_set = false ∧
    h.copy.sessions = 0 :=
  ⟨rfl, rfl, rfl, rfl, rfl, rfl, rfl, rfl, rfl, rfl⟩

/-- C9: shutdown sets the quit event and leaves every other field —
in particular both queues and their buffered frames — unchanged. -/
theorem shutdown_only_quit (h : GeminiHandler) :
    h.shutdown.quit = true ∧
    h.shutdown.input_queue = h.input_queue ∧
    h.shutdown.output_queue = h.output_queue ∧
    h.shutdown.client = h.client ∧
    h.shutdown.args_set = h.args_set ∧
    h.shutdown.sessions = h.sessions ∧
    h.shutdown.expected_layout = h.expected_layout ∧
    h.shutdown.output_sample_rate = h.output_sample_rate ∧
    h.shutdown.output_frame_size = h.output_frame_size ∧
    h.shutdown.input_sample_rate = h.input_sample_rate :=
  ⟨rfl, rfl, rfl, rfl, rfl, rfl, rfl, rfl, rfl, rfl⟩

end LiveAPIUI

namespace LiveAPIUI

/-- C4: any frame emitted after the generator has filled the output
queue from the aggregated session responses carries the configured
output sample rate as its tag and a buffer of exactly the configured
output frame size, whatever the input chunks; on the script's default
instance the configuration is 24000 Hz out, 480-sample frames,
16000 Hz in. -/
theorem emit_rate_and_size (h : GeminiHandler) (chunks : List Chunk)
    (r : Nat) (a : List Int) (hempty : h.output_queue = [])
    (hm : ((h.generatorFill chunks).emit).2 = some (r, a)) :
    r = h.output_sample_rate ∧ a.length = h.output_frame_size ∧
    initHandler.output_sample_rate = 24000 ∧
    initHandler.output_frame_size = 480 ∧
    initHandler.input_sample_rate = 16000 := by
  rw [emit_snd] at hm
  have hq : (h.generatorFill chunks).output_queue
      = aggregateTo16bit h.output_frame_size (connectYields chunks) := by
    simp [GeminiHandler.generatorFill, hempty]
  have hr : (h.generatorFill chunks).output_sample_rate = h.output_sample_rate := rfl
  rw [hq, hr] at hm
  cases hagg : aggregateTo16bit h.output_frame_size (connectYields chunks) with
  | nil => rw [hagg] at hm; simp at hm
  | cons x rest =>
    rw [hagg, List.head?_cons, Option.map_some'] at hm
    have hp := Option.some.inj hm
    have h1 : h.output_sample_rate = r := congrArg Prod.fst hp
    have h2 : x = a := congrArg Prod.snd hp
    have hx : x ∈ aggregateTo16bit h.output_frame_size (connectYields chunks) := by
      rw [hagg]; exact List.mem_cons_self x rest
    have hlen : x.length = h.output_frame_size :=
      chunkFramesAux_mem_length _ _ _ x hx
    exact ⟨h1.symm, h2 ▸ hlen, rfl, rfl, rfl⟩

/-- Witness for C4 on a concrete handler with frame size 2 and one
four-byte response chunk. -/
theorem emit_rate_and_size_witness :
    24000 = (mkHandler "mono" 24000 2).output_sample_rate ∧
    ([1, 2] : List Int).length = (mkHandler "mono" 24000 2).output_frame_size ∧
    initHandler.output_sample_rate = 24000 ∧
    initHandler.output_frame_size = 480 ∧
    initHandler.input_sample_rate = 16000 :=
  emit_rate_and_size (mkHandler "mono" 24000 2) [⟨some [1, 0, 2, 0]⟩] 24000 [1, 2]
    rfl rfl

/-- C10: whenever the relay loop finishes without an error, every byte
string it has yielded (towards the aggregator and the output queue) is
non-empty: chunks with empty or absent data are filtered out. -/
theorem connect_yields_nonempty (rs : List (Except String Chunk))
    (out : List (List Nat)) (hok : relayLoop rs = Except.ok out) :
    ∀ d ∈ out, d ≠ [] := by
  induction rs generalizing out with
  | nil =>
    simp only [relayLoop, Except.ok.injEq] at hok
    subst hok
    simp
  | cons r rs ih =>
    cases r with
    | error e => simp [relayLoop] at hok
    | ok c =>
      cases hd : c.data with
      | none =>
        simp only [relayLoop, hd] at hok
        exact ih out hok
      | some d =>
        simp only [relayLoop, hd] at hok
        by_cases hde : d.isEmpty
        · rw [if_pos hde] at hok
          exact ih out hok
        · rw [if_neg hde] at hok
          cases hr : relayLoop rs with
          | error e => rw [hr] at hok; simp [Except.map] at hok
          | ok out' =>
            rw [hr] at hok
            simp only [Except.map, Except.ok.injEq] at hok
            subst hok
            intro x hx
            rcases List.mem_cons.mp hx with hx | hx
            · subst hx
              intro hnil
              rw [hnil] at hde
              exact hde rfl
            · exact ih out' hr x hx

/-- Witness for C10 on a concrete response list with one non-empty, one
empty and one absent data field. -/
theorem connect_yields_nonempty_witness : ([7] : List Nat) ≠ [] :=
  connect_yields_nonempty
    [Except.ok ⟨some [7]⟩, Except.ok ⟨some []⟩, Except.ok ⟨none⟩]
    [[7]] rfl [7] (by simp)

end LiveAPIUI
